import Mathlib

/-! Team endpoints of the Slack client (`team.go`)

A shallow embedding of `team.go`: the envelope and parameter records, the four
private request helpers and the exported operations, followed by the properties
of the thin client contract (error handling, request encoding, payload
pass-through).

Modelling conventions

* A Go pointer `*T` is an `Option T`; `none` is the nil pointer.
* A Go slice `[]T` is an `Option (List T)`; `none` is the nil slice.
* A Go map `map[string]T` is an `Option (String → Option T)`; `none` is the nil
  map, and a key that is absent is sent to `none`.
* A Go `int` is an `Int`. The file does no arithmetic on integers, it only
  compares them with constants and prints them, so no wrap-around can occur.
* A Go result list `(a, b, err)` is a tuple whose last component is an
  `Option GoError`; `none` is the nil error.
* The shared transport primitives `postMethod` and `getMethod` live outside
  `team.go`. They are a parameter of every operation: a function from the call
  it receives to either an error or the decoded envelope. Every operation
  returns the list of calls it handed to the transport next to its Go results.
* An operation that dereferences a pointer which may be nil returns an
  `Option` of its Go results; `none` is the run-time panic of a nil dereference.
-/

set_option linter.dupNamespace false

namespace slack

/-! ## Standard-library pieces used by `team.go` -/

/-- The `url.Values` type, `map[string][]string`, as a finite-support lookup
function: a key that is absent is sent to `none`. -/
abbrev url.Values := String → Option (List String)

/-- The composite literal `url.Values{k₁: {...}, k₂: {...}}`. -/
def url.Values.literal : List (String × List String) → url.Values
  | [] => fun _ => none
  | (key, vs) :: rest => fun k => if k = key then some vs else url.Values.literal rest k

/-- The method `Values.Add`: `v[key] = append(v[key], value)`. -/
def url.Values.Add (v : url.Values) (key value : String) : url.Values :=
  fun k => if k = key then some ((v key).getD [] ++ [value]) else v k

/-- The function `strconv.Itoa`: the decimal text of an integer, with a
leading minus sign for a negative one. -/
def strconv.Itoa (i : Int) : String :=
  match i with
  | Int.ofNat n => Nat.repr n
  | Int.negSucc n => "-" ++ Nat.repr (n + 1)

/-- The function `strconv.FormatBool`. -/
def strconv.FormatBool (b : Bool) : String :=
  if b then "true" else "false"

/-- A `context.Context`. The operations never inspect it, they hand it to the
transport primitive. -/
inductive Context where
  | Background
  | custom (id : Nat)
deriving DecidableEq, Repr

/-- A Go `error` value: either an error reported by the transport primitive
(network failure, decode failure, cancellation; identified by its text), or
the error built from an envelope's error code. -/
inductive GoError where
  | transport (text : String)
  | SlackErrorResponse (Err : String)
deriving DecidableEq, Repr

/-! ## Constants -/

/-- Constant `DEFAULT_LOGINS_COUNT`. -/
def DEFAULT_LOGINS_COUNT : Int := 100

/-- Constant `DEFAULT_LOGINS_PAGE`. -/
def DEFAULT_LOGINS_PAGE : Int := 1

/-! ## Records declared outside `team.go` -/

/-- Modelled from the spec: the `response_metadata` block of the common status
block, declared outside `team.go`. The spec gives it an "optional
`response_metadata.cursor` string for pagination". -/
structure ResponseMetadata where
  Cursor : String

/-- Modelled from the spec: the common status block `SlackResponse` embedded in
every envelope, declared outside `team.go`: "a boolean `ok`/success field, an
optional `error` string, optional `response_metadata.cursor` string". -/
structure SlackResponse where
  Ok : Bool
  Error : String
  ResponseMetadata : ResponseMetadata

/-- Modelled from the spec: the method `SlackResponse.Err()`, declared outside
`team.go`. The spec: "if the envelope's success flag is false, the call returns
[...] an error constructed from the envelope's error code. Only on success flag
true is the payload returned with a nil error." -/
def SlackResponse.Err (t : SlackResponse) : Option GoError :=
  if t.Ok then none else some (GoError.SlackErrorResponse t.Error)

/-- Modelled from the spec: the record `Paging`, declared outside `team.go`:
"page metadata (current page, page count, total count, per-page count)". -/
structure Paging where
  Count : Int
  Total : Int
  Page : Int
  Pages : Int

/-- Modelled from the spec: the generic HTTP client held by `Client`, declared
outside `team.go`; `team.go` only passes it along, unused. -/
structure httpClient where
  handle : Nat

/-- Modelled from the spec: the receiver `Client`, declared outside `team.go`.
`team.go` reads its `token` ("the authentication credential held by the client
instance") and its `httpclient`. -/
structure Client where
  token : String
  httpclient : httpClient

/-- A value of type `interface{}` decoded from JSON, kept as its JSON text. -/
structure Interface where
  json : String

/-! ## Records of `team.go` -/

/-- Record `TeamInfo`. -/
structure TeamInfo where
  ID : String
  Name : String
  Domain : String
  EmailDomain : String
  Icon : Option (String → Option Interface)

/-- Record `TeamResponse`: the payload `team` and the embedded status block. -/
structure TeamResponse extends SlackResponse where
  Team : TeamInfo

/-- Record `DiscoveryEnterpriseInfo`. -/
structure DiscoveryEnterpriseInfo where
  ID : String
  Name : String
  Domain : String
  EmailDomain : String
  Icon : Option (String → Option Interface)
  Teams : Option (List TeamInfo)

/-- Record `DiscoveryEnterpriseInfoResponse`. -/
structure DiscoveryEnterpriseInfoResponse extends SlackResponse where
  Enterprise : DiscoveryEnterpriseInfo

/-- Record `TeamProfileField`; the Go field `Type` is written `Type_`. -/
structure TeamProfileField where
  ID : String
  Ordering : Int
  Label : String
  Hint : String
  Type_ : String
  PossibleValues : Option (List String)
  IsHidden : Bool
  Options : Option (String → Option Bool)

/-- Record `TeamProfile`. -/
structure TeamProfile where
  Fields : Option (List TeamProfileField)

/-- Record `TeamProfileResponse`. -/
structure TeamProfileResponse extends SlackResponse where
  Profile : TeamProfile

/-- Record `Login`. -/
structure Login where
  UserID : String
  Username : String
  DateFirst : Int
  DateLast : Int
  Count : Int
  IP : String
  UserAgent : String
  ISP : String
  Country : String
  Region : String

/-- Record `LoginResponse`: the payload `logins`, the embedded `Paging` and the
embedded status block. -/
structure LoginResponse extends Paging, SlackResponse where
  Logins : Option (List Login)

/-- Record `IntegrationLog`, which has no fields. -/
structure IntegrationLog where

/-- Record `IntegrationLogsResponse`. -/
structure IntegrationLogsResponse extends Paging, SlackResponse where
  Logs : Option (List IntegrationLog)

/-- Record `BillingActive`. -/
structure BillingActive where
  BillingActive : Bool

/-- Record `BillableInfoResponse`. -/
structure BillableInfoResponse extends SlackResponse where
  BillableInfo : Option (String → Option BillingActive)

/-- Record `AccessLogParameters`. -/
structure AccessLogParameters where
  Count : Int
  Page : Int

/-- Record `IntegrationLogsParameters`. -/
structure IntegrationLogsParameters where
  AppID : String
  ChangeType : String
  Count : Int
  Page : Int
  ServiceID : String
  TeamID : String
  User : String

/-- Record `GetDiscoveryEnterpriseInfoParameters`. -/
structure GetDiscoveryEnterpriseInfoParameters where
  Cursor : String
  IncludeDeleted : Bool
  Limit : Int

/-- Function `NewAccessLogParameters`. -/
def NewAccessLogParameters : AccessLogParameters :=
  { Count := DEFAULT_LOGINS_COUNT, Page := DEFAULT_LOGINS_PAGE }

/-- The zero value `AccessLogParameters{}`. -/
def AccessLogParameters.zero : AccessLogParameters :=
  { Count := 0, Page := 0 }

/-! ## The transport primitives, as seen from `team.go` -/

/-- One call handed to a transport primitive, with the arguments `team.go`
passes: `api.postMethod(ctx, path, values, response)` or
`api.getMethod(ctx, path, token, values, response)`. -/
inductive Call where
  | postMethod (ctx : Context) (path : String) (values : url.Values)
  | getMethod (ctx : Context) (path : String) (token : String) (values : url.Values)

/-- The behaviour of the transport primitives for an envelope type `α`: the
error they return, or the envelope they decode into `response`. -/
abbrev Transport (α : Type) := Call → Except GoError α

/-- What running an operation produces: the calls handed to the transport, in
order, and the Go results. -/
structure Outcome (ρ : Type) where
  calls : List Call
  ret : ρ

/-! ## The private request helpers -/

/-- Method `teamRequest`. -/
def Client.teamRequest (_api : Client) (tr : Transport TeamResponse) (ctx : Context)
    (path : String) (values : url.Values) :
    Outcome (Option TeamResponse × Option GoError) :=
  let call := Call.postMethod ctx path values
  match tr call with
  | .error err => ⟨[call], (none, some err)⟩
  | .ok response => ⟨[call], (some response, response.Err)⟩

/-- Method `billableInfoRequest`. -/
def Client.billableInfoRequest (_api : Client) (tr : Transport BillableInfoResponse)
    (ctx : Context) (path : String) (values : url.Values) :
    Outcome (Option (String → Option BillingActive) × Option GoError) :=
  let call := Call.postMethod ctx path values
  match tr call with
  | .error err => ⟨[call], (none, some err)⟩
  | .ok response => ⟨[call], (response.BillableInfo, response.Err)⟩

/-- Method `accessLogsRequest`. -/
def Client.accessLogsRequest (_api : Client) (tr : Transport LoginResponse) (ctx : Context)
    (path : String) (values : url.Values) :
    Outcome (Option LoginResponse × Option GoError) :=
  let call := Call.postMethod ctx path values
  match tr call with
  | .error err => ⟨[call], (none, some err)⟩
  | .ok response => ⟨[call], (some response, response.Err)⟩

/-- Method `teamProfileRequest`; its argument `client` is not used. -/
def Client.teamProfileRequest (_api : Client) (tr : Transport TeamProfileResponse)
    (ctx : Context) (_client : httpClient) (path : String) (values : url.Values) :
    Outcome (Option TeamProfileResponse × Option GoError) :=
  let call := Call.postMethod ctx path values
  match tr call with
  | .error err => ⟨[call], (none, some err)⟩
  | .ok response => ⟨[call], (some response, response.Err)⟩

/-! ## The exported operations -/

/-- The form values built at the head of `GetDiscoveryEnterpriseInfoContext`
(the statements before `response := ...`), for a non-nil `params`. -/
def Client.GetDiscoveryEnterpriseInfoContext_values (api : Client)
    (params : GetDiscoveryEnterpriseInfoParameters) : url.Values :=
  let values := url.Values.literal [("token", [api.token])]
  let values := if params.Cursor ≠ "" then values.Add "cursor" params.Cursor else values
  let values := if params.Limit ≠ 0 then values.Add "limit" (strconv.Itoa params.Limit) else values
  let values :=
    if params.IncludeDeleted then
      values.Add "include_deleted" (strconv.FormatBool params.IncludeDeleted)
    else values
  values

/-- Method `GetDiscoveryEnterpriseInfoContext`. The results are
`(enterprise, nextCursor, err)`; a nil `params` panics at `params.Cursor`,
before any call is made. -/
def Client.GetDiscoveryEnterpriseInfoContext (api : Client)
    (tr : Transport DiscoveryEnterpriseInfoResponse) (ctx : Context)
    (params : Option GetDiscoveryEnterpriseInfoParameters) :
    Outcome (Option (Option DiscoveryEnterpriseInfo × String × Option GoError)) :=
  match params with
  | none => ⟨[], none⟩
  | some params =>
    let values := api.GetDiscoveryEnterpriseInfoContext_values params
    let call := Call.postMethod ctx "discovery.enterprise.info" values
    match tr call with
    | .error err => ⟨[call], some (none, "", some err)⟩
    | .ok response =>
      ⟨[call], some (some response.Enterprise, response.ResponseMetadata.Cursor, response.Err)⟩

/-- Method `GetDiscoveryEnterpriseInfo`. -/
def Client.GetDiscoveryEnterpriseInfo (api : Client)
    (tr : Transport DiscoveryEnterpriseInfoResponse)
    (params : Option GetDiscoveryEnterpriseInfoParameters) :
    Outcome (Option (Option DiscoveryEnterpriseInfo × String × Option GoError)) :=
  api.GetDiscoveryEnterpriseInfoContext tr Context.Background params

/-- Method `GetTeamInfoContext`. The helper never returns a nil response with a
nil error; the model keeps that case as the panic of `&response.Team`. -/
def Client.GetTeamInfoContext (api : Client) (tr : Transport TeamResponse) (ctx : Context) :
    Outcome (Option (Option TeamInfo × Option GoError)) :=
  let values := url.Values.literal [("token", [api.token])]
  let r := api.teamRequest tr ctx "team.info" values
  match r.ret with
  | (_, some err) => ⟨r.calls, some (none, some err)⟩
  | (some response, none) => ⟨r.calls, some (some response.Team, none)⟩
  | (none, none) => ⟨r.calls, none⟩

/-- Method `GetTeamInfo`. -/
def Client.GetTeamInfo (api : Client) (tr : Transport TeamResponse) :
    Outcome (Option (Option TeamInfo × Option GoError)) :=
  api.GetTeamInfoContext tr Context.Background

/-- Method `GetOtherTeamInfoContext`. -/
def Client.GetOtherTeamInfoContext (api : Client) (tr : Transport TeamResponse) (ctx : Context)
    (team : String) : Outcome (Option (Option TeamInfo × Option GoError)) :=
  if team = "" then
    api.GetTeamInfoContext tr ctx
  else
    let values := url.Values.literal [("token", [api.token])]
    let values := values.Add "team" team
    let r := api.teamRequest tr ctx "team.info" values
    match r.ret with
    | (_, some err) => ⟨r.calls, some (none, some err)⟩
    | (some response, none) => ⟨r.calls, some (some response.Team, none)⟩
    | (none, none) => ⟨r.calls, none⟩

/-- Method `GetOtherTeamInfo`. -/
def Client.GetOtherTeamInfo (api : Client) (tr : Transport TeamResponse) (team : String) :
    Outcome (Option (Option TeamInfo × Option GoError)) :=
  api.GetOtherTeamInfoContext tr Context.Background team

/-- Method `GetTeamProfileContext`. -/
def Client.GetTeamProfileContext (api : Client) (tr : Transport TeamProfileResponse)
    (ctx : Context) : Outcome (Option (Option TeamProfile × Option GoError)) :=
  let values := url.Values.literal [("token", [api.token])]
  let r := api.teamProfileRequest tr ctx api.httpclient "team.profile.get" values
  match r.ret with
  | (_, some err) => ⟨r.calls, some (none, some err)⟩
  | (some response, none) => ⟨r.calls, some (some response.Profile, none)⟩
  | (none, none) => ⟨r.calls, none⟩

/-- Method `GetTeamProfile`. -/
def Client.GetTeamProfile (api : Client) (tr : Transport TeamProfileResponse) :
    Outcome (Option (Option TeamProfile × Option GoError)) :=
  api.GetTeamProfileContext tr Context.Background

/-- The form values built at the head of `GetAccessLogsContext` (the statements
before the call of `accessLogsRequest`). -/
def Client.GetAccessLogsContext_values (api : Client) (params : AccessLogParameters) :
    url.Values :=
  let values := url.Values.literal [("token", [api.token])]
  let values :=
    if params.Count ≠ DEFAULT_LOGINS_COUNT then values.Add "count" (strconv.Itoa params.Count)
    else values
  let values :=
    if params.Page ≠ DEFAULT_LOGINS_PAGE then values.Add "page" (strconv.Itoa params.Page)
    else values
  values

/-- Method `GetAccessLogsContext`. The results are `(logins, paging, err)`. -/
def Client.GetAccessLogsContext (api : Client) (tr : Transport LoginResponse) (ctx : Context)
    (params : AccessLogParameters) :
    Outcome (Option (Option (List Login) × Option Paging × Option GoError)) :=
  let values := api.GetAccessLogsContext_values params
  let r := api.accessLogsRequest tr ctx "team.accessLogs" values
  match r.ret with
  | (_, some err) => ⟨r.calls, some (none, none, some err)⟩
  | (some response, none) => ⟨r.calls, some (response.Logins, some response.toPaging, none)⟩
  | (none, none) => ⟨r.calls, none⟩

/-- Method `GetAccessLogs`. -/
def Client.GetAccessLogs (api : Client) (tr : Transport LoginResponse)
    (params : AccessLogParameters) :
    Outcome (Option (Option (List Login) × Option Paging × Option GoError)) :=
  api.GetAccessLogsContext tr Context.Background params

/-- Method `GetBillableInfoContext`. -/
def Client.GetBillableInfoContext (api : Client) (tr : Transport BillableInfoResponse)
    (ctx : Context) (user : String) :
    Outcome (Option (String → Option BillingActive) × Option GoError) :=
  let values := url.Values.literal [("token", [api.token]), ("user", [user])]
  api.billableInfoRequest tr ctx "team.billableInfo" values

/-- Method `GetBillableInfo`. -/
def Client.GetBillableInfo (api : Client) (tr : Transport BillableInfoResponse) (user : String) :
    Outcome (Option (String → Option BillingActive) × Option GoError) :=
  api.GetBillableInfoContext tr Context.Background user

/-- Method `GetBillableInfoForTeamContext`. -/
def Client.GetBillableInfoForTeamContext (api : Client) (tr : Transport BillableInfoResponse)
    (ctx : Context) : Outcome (Option (String → Option BillingActive) × Option GoError) :=
  let values := url.Values.literal [("token", [api.token])]
  api.billableInfoRequest tr ctx "team.billableInfo" values

/-- Method `GetBillableInfoForTeam`. -/
def Client.GetBillableInfoForTeam (api : Client) (tr : Transport BillableInfoResponse) :
    Outcome (Option (String → Option BillingActive) × Option GoError) :=
  api.GetBillableInfoForTeamContext tr Context.Background

/-- The query values built at the head of `GetIntegrationLogsContext` (the
statements before `response := ...`); they start from the empty
`url.Values{}` and never read the client. -/
def GetIntegrationLogsContext_values (params : IntegrationLogsParameters) : url.Values :=
  let values := url.Values.literal []
  let values := if params.AppID ≠ "" then values.Add "app_id" params.AppID else values
  let values :=
    if params.ChangeType ≠ "" then values.Add "change_type" params.ChangeType else values
  let values := if params.ServiceID ≠ "" then values.Add "service_id" params.ServiceID else values
  let values := if params.TeamID ≠ "" then values.Add "team_id" params.TeamID else values
  let values := if params.User ≠ "" then values.Add "user" params.User else values
  let values :=
    if params.Count ≠ DEFAULT_LOGINS_COUNT then values.Add "count" (strconv.Itoa params.Count)
    else values
  let values :=
    if params.Page ≠ DEFAULT_LOGINS_PAGE then values.Add "page" (strconv.Itoa params.Page)
    else values
  values

/-- Method `GetIntegrationLogsContext`. -/
def Client.GetIntegrationLogsContext (api : Client) (tr : Transport IntegrationLogsResponse)
    (ctx : Context) (params : IntegrationLogsParameters) :
    Outcome (Option IntegrationLogsResponse × Option GoError) :=
  let values := GetIntegrationLogsContext_values params
  let call := Call.getMethod ctx "team.integrationLogs" api.token values
  match tr call with
  | .error err => ⟨[call], (none, some err)⟩
  | .ok response => ⟨[call], (some response, none)⟩

/-- Method `GetIntegrationLogs`. -/
def Client.GetIntegrationLogs (api : Client) (tr : Transport IntegrationLogsResponse)
    (params : IntegrationLogsParameters) :
    Outcome (Option IntegrationLogsResponse × Option GoError) :=
  api.GetIntegrationLogsContext tr Context.Background params


/-! ## Vocabulary of the statements and sample inputs -/

/-- The transport `tr` gives the answer `a` to every call in `calls`. With the
calls of one run of an operation, this says what the transport did in that run. -/
def Answers {α : Type} (tr : Transport α) (calls : List Call) (a : Except GoError α) : Prop :=
  ∀ c ∈ calls, tr c = a

/-- A client holding the token `xoxb-1`. -/
def sampleClient : Client :=
  { token := "xoxb-1", httpclient := { handle := 0 } }

/-- The status block of the envelope `{"ok": false, "error": "not_authed"}`. -/
def notAuthed : SlackResponse :=
  { Ok := false, Error := "not_authed", ResponseMetadata := { Cursor := "" } }

/-- The status block of an envelope `{"ok": true}`. -/
def okStatus : SlackResponse :=
  { Ok := true, Error := "", ResponseMetadata := { Cursor := "" } }

/-- The team `{"id": "T1", "name": "Acme"}`. -/
def acme : TeamInfo :=
  { ID := "T1", Name := "Acme", Domain := "", EmailDomain := "", Icon := none }

/-- An envelope carrying the team `acme` under the given status block. -/
def teamEnvelope (status : SlackResponse) : TeamResponse :=
  { toSlackResponse := status, Team := acme }

/-- A profile with one field. -/
def sampleProfile : TeamProfile :=
  { Fields := some [{ ID := "Xf1", Ordering := 0, Label := "Phone", Hint := "", Type_ := "text",
                      PossibleValues := none, IsHidden := false, Options := none }] }

/-- An envelope carrying `sampleProfile` under the given status block. -/
def profileEnvelope (status : SlackResponse) : TeamProfileResponse :=
  { toSlackResponse := status, Profile := sampleProfile }

/-- A login entry of the given user. -/
def sampleLogin (user : String) : Login :=
  { UserID := user, Username := "bob", DateFirst := 1, DateLast := 2, Count := 3, IP := "",
    UserAgent := "", ISP := "", Country := "", Region := "" }

/-- The paging block `{"page":2,"pages":5,"count":100,"total":412}`. -/
def samplePaging : Paging :=
  { Count := 100, Total := 412, Page := 2, Pages := 5 }

/-- An envelope with three logins and `samplePaging` under the given status block. -/
def loginEnvelope (status : SlackResponse) : LoginResponse :=
  { toPaging := samplePaging, toSlackResponse := status,
    Logins := some [sampleLogin "U1", sampleLogin "U2", sampleLogin "U3"] }

/-- A billable-info map with the single user `U1`. -/
def sampleBillable : String → Option BillingActive :=
  fun k => if k = "U1" then some { BillingActive := true } else none

/-- An envelope carrying `sampleBillable` under the given status block. -/
def billableEnvelope (status : SlackResponse) : BillableInfoResponse :=
  { toSlackResponse := status, BillableInfo := some sampleBillable }

/-- An envelope with one integration log under the given status block. -/
def logsEnvelope (status : SlackResponse) : IntegrationLogsResponse :=
  { toPaging := samplePaging, toSlackResponse := status, Logs := some [{}] }

/-- An enterprise with one team. -/
def sampleEnterprise : DiscoveryEnterpriseInfo :=
  { ID := "E1", Name := "Acme Grid", Domain := "", EmailDomain := "", Icon := none,
    Teams := some [acme] }

/-- An envelope carrying `sampleEnterprise` and the cursor `next-1` with the
given success flag and error code. -/
def enterpriseEnvelope (ok : Bool) (code : String) : DiscoveryEnterpriseInfoResponse :=
  { Ok := ok, Error := code, ResponseMetadata := { Cursor := "next-1" },
    Enterprise := sampleEnterprise }

/-- Integration-log parameters with every field at its default. -/
def sampleLogsParameters : IntegrationLogsParameters :=
  { AppID := "", ChangeType := "", Count := 100, Page := 1, ServiceID := "", TeamID := "",
    User := "" }

/-- Discovery parameters asking for the page after the cursor `here`. -/
def sampleDiscoveryParameters : GetDiscoveryEnterpriseInfoParameters :=
  { Cursor := "here", IncludeDeleted := false, Limit := 0 }

/-- A transport error standing for a cancelled context. -/
def canceled : GoError := GoError.transport "context canceled"

/-! ## Basic facts about `url.Values` -/

theorem url.Values.literal_nil (k : String) : url.Values.literal [] k = none := rfl

theorem url.Values.literal_cons (key : String) (vs : List String)
    (rest : List (String × List String)) (k : String) :
    url.Values.literal ((key, vs) :: rest) k
      = if k = key then some vs else url.Values.literal rest k := rfl

theorem url.Values.Add_apply (v : url.Values) (key value k : String) :
    v.Add key value k = if k = key then some ((v key).getD [] ++ [value]) else v k := rfl

/-- A guarded `values.Add(key, value)`, read at a key. -/
theorem url.Values.ite_Add_apply (c : Prop) [Decidable c] (v : url.Values)
    (key value k : String) :
    (if c then v.Add key value else v) k =
      if k = key then (if c then some ((v key).getD [] ++ [value]) else v key) else v k := by
  by_cases hc : c <;> by_cases hk : k = key <;> simp [hc, hk, url.Values.Add_apply]

/-! ## What each operation sends and returns, by the transport's answer -/

theorem GetTeamInfoContext_eq (api : Client) (tr : Transport TeamResponse) (ctx : Context) :
    api.GetTeamInfoContext tr ctx =
      ⟨[Call.postMethod ctx "team.info" (url.Values.literal [("token", [api.token])])],
        match tr (Call.postMethod ctx "team.info" (url.Values.literal [("token", [api.token])])) with
        | .error err => some (none, some err)
        | .ok response =>
          match response.Err with
          | some err => some (none, some err)
          | none => some (some response.Team, none)⟩ := by
  unfold Client.GetTeamInfoContext Client.teamRequest
  simp only []
  cases tr (Call.postMethod ctx "team.info" (url.Values.literal [("token", [api.token])])) with
  | error e => rfl
  | ok r => cases h : r.Err <;> simp [h]

theorem GetOtherTeamInfoContext_eq (api : Client) (tr : Transport TeamResponse) (ctx : Context)
    (team : String) :
    api.GetOtherTeamInfoContext tr ctx team =
      ⟨[Call.postMethod ctx "team.info"
          (if team = "" then url.Values.literal [("token", [api.token])]
           else (url.Values.literal [("token", [api.token])]).Add "team" team)],
        match tr (Call.postMethod ctx "team.info"
          (if team = "" then url.Values.literal [("token", [api.token])]
           else (url.Values.literal [("token", [api.token])]).Add "team" team)) with
        | .error err => some (none, some err)
        | .ok response =>
          match response.Err with
          | some err => some (none, some err)
          | none => some (some response.Team, none)⟩ := by
  by_cases ht : team = ""
  · simp only [Client.GetOtherTeamInfoContext, ht, if_true]
    exact GetTeamInfoContext_eq api tr ctx
  · unfold Client.GetOtherTeamInfoContext Client.teamRequest
    simp only [ht, if_false]
    cases tr (Call.postMethod ctx "team.info"
        ((url.Values.literal [("token", [api.token])]).Add "team" team)) with
    | error e => rfl
    | ok r => cases h : r.Err <;> simp [h]

theorem GetTeamProfileContext_eq (api : Client) (tr : Transport TeamProfileResponse)
    (ctx : Context) :
    api.GetTeamProfileContext tr ctx =
      ⟨[Call.postMethod ctx "team.profile.get" (url.Values.literal [("token", [api.token])])],
        match tr (Call.postMethod ctx "team.profile.get"
          (url.Values.literal [("token", [api.token])])) with
        | .error err => some (none, some err)
        | .ok response =>
          match response.Err with
          | some err => some (none, some err)
          | none => some (some response.Profile, none)⟩ := by
  unfold Client.GetTeamProfileContext Client.teamProfileRequest
  simp only []
  cases tr (Call.postMethod ctx "team.profile.get"
      (url.Values.literal [("token", [api.token])])) with
  | error e => rfl
  | ok r => cases h : r.Err <;> simp [h]

theorem GetAccessLogsContext_eq (api : Client) (tr : Transport LoginResponse) (ctx : Context)
    (p : AccessLogParameters) :
    api.GetAccessLogsContext tr ctx p =
      ⟨[Call.postMethod ctx "team.accessLogs" (api.GetAccessLogsContext_values p)],
        match tr (Call.postMethod ctx "team.accessLogs" (api.GetAccessLogsContext_values p)) with
        | .error err => some (none, none, some err)
        | .ok response =>
          match response.Err with
          | some err => some (none, none, some err)
          | none => some (response.Logins, some response.toPaging, none)⟩ := by
  unfold Client.GetAccessLogsContext Client.accessLogsRequest
  simp only []
  cases tr (Call.postMethod ctx "team.accessLogs" (api.GetAccessLogsContext_values p)) with
  | error e => rfl
  | ok r => cases h : r.Err <;> simp [h]

theorem GetBillableInfoContext_eq (api : Client) (tr : Transport BillableInfoResponse)
    (ctx : Context) (user : String) :
    api.GetBillableInfoContext tr ctx user =
      ⟨[Call.postMethod ctx "team.billableInfo"
          (url.Values.literal [("token", [api.token]), ("user", [user])])],
        match tr (Call.postMethod ctx "team.billableInfo"
          (url.Values.literal [("token", [api.token]), ("user", [user])])) with
        | .error err => (none, some err)
        | .ok response => (response.BillableInfo, response.Err)⟩ := by
  unfold Client.GetBillableInfoContext Client.billableInfoRequest
  simp only []
  cases tr (Call.postMethod ctx "team.billableInfo"
      (url.Values.literal [("token", [api.token]), ("user", [user])])) <;> rfl

theorem GetBillableInfoForTeamContext_eq (api : Client) (tr : Transport BillableInfoResponse)
    (ctx : Context) :
    api.GetBillableInfoForTeamContext tr ctx =
      ⟨[Call.postMethod ctx "team.billableInfo" (url.Values.literal [("token", [api.token])])],
        match tr (Call.postMethod ctx "team.billableInfo"
          (url.Values.literal [("token", [api.token])])) with
        | .error err => (none, some err)
        | .ok response => (response.BillableInfo, response.Err)⟩ := by
  unfold Client.GetBillableInfoForTeamContext Client.billableInfoRequest
  simp only []
  cases tr (Call.postMethod ctx "team.billableInfo"
      (url.Values.literal [("token", [api.token])])) <;> rfl

theorem GetIntegrationLogsContext_eq (api : Client) (tr : Transport IntegrationLogsResponse)
    (ctx : Context) (p : IntegrationLogsParameters) :
    api.GetIntegrationLogsContext tr ctx p =
      ⟨[Call.getMethod ctx "team.integrationLogs" api.token (GetIntegrationLogsContext_values p)],
        match tr (Call.getMethod ctx "team.integrationLogs" api.token
          (GetIntegrationLogsContext_values p)) with
        | .error err => (none, some err)
        | .ok response => (some response, none)⟩ := by
  unfold Client.GetIntegrationLogsContext
  simp only []
  cases tr (Call.getMethod ctx "team.integrationLogs" api.token
      (GetIntegrationLogsContext_values p)) <;> rfl

theorem GetDiscoveryEnterpriseInfoContext_eq (api : Client)
    (tr : Transport DiscoveryEnterpriseInfoResponse) (ctx : Context)
    (p : GetDiscoveryEnterpriseInfoParameters) :
    api.GetDiscoveryEnterpriseInfoContext tr ctx (some p) =
      ⟨[Call.postMethod ctx "discovery.enterprise.info"
          (api.GetDiscoveryEnterpriseInfoContext_values p)],
        match tr (Call.postMethod ctx "discovery.enterprise.info"
          (api.GetDiscoveryEnterpriseInfoContext_values p)) with
        | .error err => some (none, "", some err)
        | .ok response =>
          some (some response.Enterprise, response.ResponseMetadata.Cursor, response.Err)⟩ := by
  unfold Client.GetDiscoveryEnterpriseInfoContext
  simp only []
  cases tr (Call.postMethod ctx "discovery.enterprise.info"
      (api.GetDiscoveryEnterpriseInfoContext_values p)) <;> rfl

/-! ## The keys of the values each operation builds -/

theorem GetAccessLogsContext_values_apply (api : Client) (p : AccessLogParameters) (k : String) :
    api.GetAccessLogsContext_values p k =
      if k = "token" then some [api.token]
      else if k = "count" then (if p.Count ≠ 100 then some [strconv.Itoa p.Count] else none)
      else if k = "page" then (if p.Page ≠ 1 then some [strconv.Itoa p.Page] else none)
      else none := by
  simp only [Client.GetAccessLogsContext_values, DEFAULT_LOGINS_COUNT, DEFAULT_LOGINS_PAGE]
  split_ifs <;> simp_all [url.Values.Add_apply, url.Values.literal_cons, url.Values.literal_nil]

theorem GetIntegrationLogsContext_values_apply (p : IntegrationLogsParameters) (k : String) :
    GetIntegrationLogsContext_values p k =
      if k = "app_id" then (if p.AppID ≠ "" then some [p.AppID] else none)
      else if k = "change_type" then (if p.ChangeType ≠ "" then some [p.ChangeType] else none)
      else if k = "service_id" then (if p.ServiceID ≠ "" then some [p.ServiceID] else none)
      else if k = "team_id" then (if p.TeamID ≠ "" then some [p.TeamID] else none)
      else if k = "user" then (if p.User ≠ "" then some [p.User] else none)
      else if k = "count" then (if p.Count ≠ 100 then some [strconv.Itoa p.Count] else none)
      else if k = "page" then (if p.Page ≠ 1 then some [strconv.Itoa p.Page] else none)
      else none := by
  simp only [GetIntegrationLogsContext_values, url.Values.ite_Add_apply, url.Values.literal_nil,
    DEFAULT_LOGINS_COUNT, DEFAULT_LOGINS_PAGE]
  by_cases h1 : k = "app_id"
  · subst h1; simp
  by_cases h2 : k = "change_type"
  · subst h2; simp
  by_cases h3 : k = "service_id"
  · subst h3; simp
  by_cases h4 : k = "team_id"
  · subst h4; simp
  by_cases h5 : k = "user"
  · subst h5; simp
  by_cases h6 : k = "count"
  · subst h6; simp
  by_cases h7 : k = "page"
  · subst h7; simp
  simp [h1, h2, h3, h4, h5, h6, h7]

theorem GetDiscoveryEnterpriseInfoContext_values_apply (api : Client)
    (p : GetDiscoveryEnterpriseInfoParameters) (k : String) :
    api.GetDiscoveryEnterpriseInfoContext_values p k =
      if k = "token" then some [api.token]
      else if k = "cursor" then (if p.Cursor ≠ "" then some [p.Cursor] else none)
      else if k = "limit" then (if p.Limit ≠ 0 then some [strconv.Itoa p.Limit] else none)
      else if k = "include_deleted" then (if p.IncludeDeleted = true then some ["true"] else none)
      else none := by
  simp only [Client.GetDiscoveryEnterpriseInfoContext_values]
  split_ifs <;>
    simp_all [url.Values.Add_apply, url.Values.literal_cons, url.Values.literal_nil,
      strconv.FormatBool]

/-! ## Error handling -/

/-- The convenience forms are the context forms run under `context.Background()`. -/
theorem convenience_forms (api : Client) (team user : String) (ap : AccessLogParameters)
    (ip : IntegrationLogsParameters) (dp : Option GetDiscoveryEnterpriseInfoParameters)
    (trT : Transport TeamResponse) (trP : Transport TeamProfileResponse)
    (trL : Transport LoginResponse) (trB : Transport BillableInfoResponse)
    (trI : Transport IntegrationLogsResponse) (trD : Transport DiscoveryEnterpriseInfoResponse) :
    api.GetTeamInfo trT = api.GetTeamInfoContext trT Context.Background ∧
    api.GetOtherTeamInfo trT team = api.GetOtherTeamInfoContext trT Context.Background team ∧
    api.GetTeamProfile trP = api.GetTeamProfileContext trP Context.Background ∧
    api.GetAccessLogs trL ap = api.GetAccessLogsContext trL Context.Background ap ∧
    api.GetBillableInfo trB user = api.GetBillableInfoContext trB Context.Background user ∧
    api.GetBillableInfoForTeam trB = api.GetBillableInfoForTeamContext trB Context.Background ∧
    api.GetIntegrationLogs trI ip = api.GetIntegrationLogsContext trI Context.Background ip ∧
    api.GetDiscoveryEnterpriseInfo trD dp
      = api.GetDiscoveryEnterpriseInfoContext trD Context.Background dp :=
  ⟨rfl, rfl, rfl, rfl, rfl, rfl, rfl, rfl⟩

/-- A helper that checks `Err()`: a nil error after `teamRequest` means the
transport decoded an envelope whose success flag is true. -/
theorem GetTeamInfoContext_nil_error (api : Client) (tr : Transport TeamResponse)
    (ctx : Context) (team : Option TeamInfo)
    (h : (api.GetTeamInfoContext tr ctx).ret = some (team, none)) :
    ∃ r, Answers tr (api.GetTeamInfoContext tr ctx).calls (.ok r) ∧ r.Ok = true := by
  rw [GetTeamInfoContext_eq] at h ⊢
  cases hc : tr (Call.postMethod ctx "team.info" (url.Values.literal [("token", [api.token])])) with
  | error e => simp [hc] at h
  | ok r =>
    refine ⟨r, ?_, ?_⟩
    · intro c hmem
      rw [List.mem_singleton.mp hmem, hc]
    · cases hok : r.Ok with
      | true => rfl
      | false => simp [hc, SlackResponse.Err, hok] at h

/-- The same for the access logs, whose helper `accessLogsRequest` checks `Err()`. -/
theorem GetAccessLogsContext_nil_error (api : Client) (tr : Transport LoginResponse)
    (ctx : Context) (p : AccessLogParameters) (logins : Option (List Login))
    (paging : Option Paging)
    (h : (api.GetAccessLogsContext tr ctx p).ret = some (logins, paging, none)) :
    ∃ r, Answers tr (api.GetAccessLogsContext tr ctx p).calls (.ok r) ∧ r.Ok = true := by
  rw [GetAccessLogsContext_eq] at h ⊢
  cases hc : tr (Call.postMethod ctx "team.accessLogs" (api.GetAccessLogsContext_values p)) with
  | error e => simp [hc] at h
  | ok r =>
    refine ⟨r, ?_, ?_⟩
    · intro c hmem
      rw [List.mem_singleton.mp hmem, hc]
    · cases hok : r.Ok with
      | true => rfl
      | false => simp [hc, SlackResponse.Err, hok] at h

/-- The same for the billable info, whose helper `billableInfoRequest` returns `Err()`. -/
theorem GetBillableInfoContext_nil_error (api : Client) (tr : Transport BillableInfoResponse)
    (ctx : Context) (user : String) (info : Option (String → Option BillingActive))
    (h : (api.GetBillableInfoContext tr ctx user).ret = (info, none)) :
    ∃ r, Answers tr (api.GetBillableInfoContext tr ctx user).calls (.ok r) ∧ r.Ok = true := by
  rw [GetBillableInfoContext_eq] at h ⊢
  cases hc : tr (Call.postMethod ctx "team.billableInfo"
      (url.Values.literal [("token", [api.token]), ("user", [user])])) with
  | error e => simp [hc] at h
  | ok r =>
    refine ⟨r, ?_, ?_⟩
    · intro c hmem
      rw [List.mem_singleton.mp hmem, hc]
    · cases hok : r.Ok with
      | true => rfl
      | false => simp [hc, SlackResponse.Err, hok] at h

/-- The same for the discovery operation, which returns `Err()` itself. -/
theorem GetDiscoveryEnterpriseInfoContext_nil_error (api : Client)
    (tr : Transport DiscoveryEnterpriseInfoResponse) (ctx : Context)
    (p : GetDiscoveryEnterpriseInfoParameters) (enterprise : Option DiscoveryEnterpriseInfo)
    (nextCursor : String)
    (h : (api.GetDiscoveryEnterpriseInfoContext tr ctx (some p)).ret
      = some (enterprise, nextCursor, none)) :
    ∃ r, Answers tr (api.GetDiscoveryEnterpriseInfoContext tr ctx (some p)).calls (.ok r) ∧
      r.Ok = true := by
  rw [GetDiscoveryEnterpriseInfoContext_eq] at h ⊢
  cases hc : tr (Call.postMethod ctx "discovery.enterprise.info"
      (api.GetDiscoveryEnterpriseInfoContext_values p)) with
  | error e => simp [hc] at h
  | ok r =>
    refine ⟨r, ?_, ?_⟩
    · intro c hmem
      rw [List.mem_singleton.mp hmem, hc]
    · cases hok : r.Ok with
      | true => rfl
      | false => simp [hc, SlackResponse.Err, hok] at h

/-- The integration-logs operation, for every envelope the transport decodes,
returns that envelope and a nil error: it has no `Err()` check. -/
theorem GetIntegrationLogsContext_of_ok (api : Client) (ctx : Context)
    (p : IntegrationLogsParameters) (r : IntegrationLogsResponse) :
    (api.GetIntegrationLogsContext (fun _ => .ok r) ctx p).ret = (some r, none) := by
  rw [GetIntegrationLogsContext_eq]

/-- C1, evaluated at the input where the code departs from it: the transport
succeeds and the envelope is `{"ok": false, "error": "not_authed"}`, yet
`GetIntegrationLogsContext` returns the envelope with a nil error, because it
never consults the envelope's `Err()`. -/
theorem GetIntegrationLogsContext_nil_error_on_remote_failure :
    (logsEnvelope notAuthed).Ok = false ∧ (logsEnvelope notAuthed).Error = "not_authed" ∧
    (sampleClient.GetIntegrationLogsContext (fun _ => .ok (logsEnvelope notAuthed))
        Context.Background sampleLogsParameters).ret
      = (some (logsEnvelope notAuthed), none) :=
  ⟨rfl, rfl, rfl⟩

/-- C2 as stated fails: with the transport succeeding on an envelope whose
success flag is false, `GetBillableInfoContext` returns the envelope's non-nil
`billable_info` map next to the error, and `GetDiscoveryEnterpriseInfoContext`
returns a non-nil enterprise and the non-empty cursor next to the error. -/
theorem payload_returned_with_remote_error :
    (billableEnvelope notAuthed).Ok = false ∧
    (sampleClient.GetBillableInfoContext (fun _ => .ok (billableEnvelope notAuthed))
        Context.Background "U1").ret
      = (some sampleBillable, some (GoError.SlackErrorResponse "not_authed")) ∧
    (sampleClient.GetBillableInfoContext (fun _ => .ok (billableEnvelope notAuthed))
        Context.Background "U1").ret.1 ≠ none ∧
    (enterpriseEnvelope false "not_authed").Ok = false ∧
    (sampleClient.GetDiscoveryEnterpriseInfoContext
        (fun _ => .ok (enterpriseEnvelope false "not_authed")) Context.Background
        (some sampleDiscoveryParameters)).ret
      = some (some sampleEnterprise, "next-1", some (GoError.SlackErrorResponse "not_authed")) ∧
    (sampleClient.GetDiscoveryEnterpriseInfoContext
        (fun _ => .ok (enterpriseEnvelope false "not_authed")) Context.Background
        (some sampleDiscoveryParameters)).ret
      ≠ some (none, "", some (GoError.SlackErrorResponse "not_authed")) :=
  ⟨rfl, rfl, fun h => Option.noConfusion h, rfl, rfl,
    fun h => Option.noConfusion (congrArg (fun o => o.bind fun t => t.1) h)⟩

/-- C3: when the transport primitive answers an operation's call with an error
`e` (network, decode or cancellation), the operation returns exactly `e` and no
payload: a nil pointer, nil slice, nil map, nil paging, empty cursor. This holds
for all eight operations, under any context. -/
theorem transport_error_returned_unchanged (api : Client) (ctx : Context) (e : GoError)
    (team user : String) (ap : AccessLogParameters) (ip : IntegrationLogsParameters)
    (dp : GetDiscoveryEnterpriseInfoParameters)
    (trT : Transport TeamResponse) (trP : Transport TeamProfileResponse)
    (trL : Transport LoginResponse) (trB : Transport BillableInfoResponse)
    (trI : Transport IntegrationLogsResponse) (trD : Transport DiscoveryEnterpriseInfoResponse)
    (hSelf : Answers trT (api.GetTeamInfoContext trT ctx).calls (.error e))
    (hOther : Answers trT (api.GetOtherTeamInfoContext trT ctx team).calls (.error e))
    (hProfile : Answers trP (api.GetTeamProfileContext trP ctx).calls (.error e))
    (hLogins : Answers trL (api.GetAccessLogsContext trL ctx ap).calls (.error e))
    (hUser : Answers trB (api.GetBillableInfoContext trB ctx user).calls (.error e))
    (hTeam : Answers trB (api.GetBillableInfoForTeamContext trB ctx).calls (.error e))
    (hLogs : Answers trI (api.GetIntegrationLogsContext trI ctx ip).calls (.error e))
    (hDisc : Answers trD (api.GetDiscoveryEnterpriseInfoContext trD ctx (some dp)).calls
      (.error e)) :
    (api.GetTeamInfoContext trT ctx).ret = some (none, some e) ∧
    (api.GetOtherTeamInfoContext trT ctx team).ret = some (none, some e) ∧
    (api.GetTeamProfileContext trP ctx).ret = some (none, some e) ∧
    (api.GetAccessLogsContext trL ctx ap).ret = some (none, none, some e) ∧
    (api.GetBillableInfoContext trB ctx user).ret = (none, some e) ∧
    (api.GetBillableInfoForTeamContext trB ctx).ret = (none, some e) ∧
    (api.GetIntegrationLogsContext trI ctx ip).ret = (none, some e) ∧
    (api.GetDiscoveryEnterpriseInfoContext trD ctx (some dp)).ret = some (none, "", some e) := by
  rw [GetTeamInfoContext_eq] at hSelf ⊢
  rw [GetOtherTeamInfoContext_eq] at hOther ⊢
  rw [GetTeamProfileContext_eq] at hProfile ⊢
  rw [GetAccessLogsContext_eq] at hLogins ⊢
  rw [GetBillableInfoContext_eq] at hUser ⊢
  rw [GetBillableInfoForTeamContext_eq] at hTeam ⊢
  rw [GetIntegrationLogsContext_eq] at hLogs ⊢
  rw [GetDiscoveryEnterpriseInfoContext_eq] at hDisc ⊢
  have h1 := hSelf _ (List.mem_singleton.mpr rfl)
  have h2 := hOther _ (List.mem_singleton.mpr rfl)
  have h3 := hProfile _ (List.mem_singleton.mpr rfl)
  have h4 := hLogins _ (List.mem_singleton.mpr rfl)
  have h5 := hUser _ (List.mem_singleton.mpr rfl)
  have h6 := hTeam _ (List.mem_singleton.mpr rfl)
  have h7 := hLogs _ (List.mem_singleton.mpr rfl)
  have h8 := hDisc _ (List.mem_singleton.mpr rfl)
  simp only [h1, h2, h3, h4, h5, h6, h7, h8, and_self]

/-- Witness of C3: every transport fails with the cancellation error, and every
operation of the sample client returns that error and no payload. -/
theorem transport_error_returned_unchanged_witness :
    Answers (fun _ => Except.error canceled)
      (sampleClient.GetTeamInfoContext (fun _ => .error canceled) Context.Background).calls
      (Except.error canceled : Except GoError TeamResponse) ∧
    Answers (fun _ => Except.error canceled)
      (sampleClient.GetDiscoveryEnterpriseInfoContext (fun _ => .error canceled)
        Context.Background (some sampleDiscoveryParameters)).calls
      (Except.error canceled : Except GoError DiscoveryEnterpriseInfoResponse) ∧
    (sampleClient.GetTeamInfoContext (fun _ => .error canceled) Context.Background).ret
      = some (none, some canceled) ∧
    (sampleClient.GetOtherTeamInfoContext (fun _ => .error canceled) Context.Background "T2").ret
      = some (none, some canceled) ∧
    (sampleClient.GetTeamProfileContext (fun _ => .error canceled) Context.Background).ret
      = some (none, some canceled) ∧
    (sampleClient.GetAccessLogsContext (fun _ => .error canceled) Context.Background
        NewAccessLogParameters).ret = some (none, none, some canceled) ∧
    (sampleClient.GetBillableInfoContext (fun _ => .error canceled) Context.Background "U1").ret
      = (none, some canceled) ∧
    (sampleClient.GetBillableInfoForTeamContext (fun _ => .error canceled)
        Context.Background).ret = (none, some canceled) ∧
    (sampleClient.GetIntegrationLogsContext (fun _ => .error canceled) Context.Background
        sampleLogsParameters).ret = (none, some canceled) ∧
    (sampleClient.GetDiscoveryEnterpriseInfoContext (fun _ => .error canceled)
        Context.Background (some sampleDiscoveryParameters)).ret
      = some (none, "", some canceled) :=
  ⟨fun _ _ => rfl, fun _ _ => rfl,
    transport_error_returned_unchanged sampleClient Context.Background canceled "T2" "U1"
      NewAccessLogParameters sampleLogsParameters sampleDiscoveryParameters
      (fun _ => .error canceled) (fun _ => .error canceled) (fun _ => .error canceled)
      (fun _ => .error canceled) (fun _ => .error canceled) (fun _ => .error canceled)
      (fun _ _ => rfl) (fun _ _ => rfl) (fun _ _ => rfl) (fun _ _ => rfl)
      (fun _ _ => rfl) (fun _ _ => rfl) (fun _ _ => rfl) (fun _ _ => rfl)⟩

/-- C2, amended: when the transport succeeds on an envelope whose success flag
is false, every operation but the integration logs returns the error built from
the envelope's error code. Team info (self and other), team profile and access
logs return no payload next to it. The two billable-info operations return the
envelope's `billable_info` map as decoded, and the discovery operation returns
the envelope's enterprise record behind a non-nil pointer and the envelope's
cursor. -/
theorem remote_error_results (api : Client) (ctx : Context)
    (team user : String) (ap : AccessLogParameters) (dp : GetDiscoveryEnterpriseInfoParameters)
    (trT : Transport TeamResponse) (trP : Transport TeamProfileResponse)
    (trL : Transport LoginResponse) (trB : Transport BillableInfoResponse)
    (trD : Transport DiscoveryEnterpriseInfoResponse)
    (rT : TeamResponse) (rP : TeamProfileResponse) (rL : LoginResponse)
    (rB : BillableInfoResponse) (rD : DiscoveryEnterpriseInfoResponse)
    (hT : rT.Ok = false) (hP : rP.Ok = false) (hL : rL.Ok = false) (hB : rB.Ok = false)
    (hD : rD.Ok = false)
    (hSelf : Answers trT (api.GetTeamInfoContext trT ctx).calls (.ok rT))
    (hOther : Answers trT (api.GetOtherTeamInfoContext trT ctx team).calls (.ok rT))
    (hProfile : Answers trP (api.GetTeamProfileContext trP ctx).calls (.ok rP))
    (hLogins : Answers trL (api.GetAccessLogsContext trL ctx ap).calls (.ok rL))
    (hUser : Answers trB (api.GetBillableInfoContext trB ctx user).calls (.ok rB))
    (hTeam : Answers trB (api.GetBillableInfoForTeamContext trB ctx).calls (.ok rB))
    (hDisc : Answers trD (api.GetDiscoveryEnterpriseInfoContext trD ctx (some dp)).calls
      (.ok rD)) :
    (api.GetTeamInfoContext trT ctx).ret
      = some (none, some (GoError.SlackErrorResponse rT.Error)) ∧
    (api.GetOtherTeamInfoContext trT ctx team).ret
      = some (none, some (GoError.SlackErrorResponse rT.Error)) ∧
    (api.GetTeamProfileContext trP ctx).ret
      = some (none, some (GoError.SlackErrorResponse rP.Error)) ∧
    (api.GetAccessLogsContext trL ctx ap).ret
      = some (none, none, some (GoError.SlackErrorResponse rL.Error)) ∧
    (api.GetBillableInfoContext trB ctx user).ret
      = (rB.BillableInfo, some (GoError.SlackErrorResponse rB.Error)) ∧
    (api.GetBillableInfoForTeamContext trB ctx).ret
      = (rB.BillableInfo, some (GoError.SlackErrorResponse rB.Error)) ∧
    (api.GetDiscoveryEnterpriseInfoContext trD ctx (some dp)).ret
      = some (some rD.Enterprise, rD.ResponseMetadata.Cursor,
          some (GoError.SlackErrorResponse rD.Error)) := by
  rw [GetTeamInfoContext_eq] at hSelf ⊢
  rw [GetOtherTeamInfoContext_eq] at hOther ⊢
  rw [GetTeamProfileContext_eq] at hProfile ⊢
  rw [GetAccessLogsContext_eq] at hLogins ⊢
  rw [GetBillableInfoContext_eq] at hUser ⊢
  rw [GetBillableInfoForTeamContext_eq] at hTeam ⊢
  rw [GetDiscoveryEnterpriseInfoContext_eq] at hDisc ⊢
  have h1 := hSelf _ (List.mem_singleton.mpr rfl)
  have h2 := hOther _ (List.mem_singleton.mpr rfl)
  have h3 := hProfile _ (List.mem_singleton.mpr rfl)
  have h4 := hLogins _ (List.mem_singleton.mpr rfl)
  have h5 := hUser _ (List.mem_singleton.mpr rfl)
  have h6 := hTeam _ (List.mem_singleton.mpr rfl)
  have h8 := hDisc _ (List.mem_singleton.mpr rfl)
  simp only [h1, h2, h3, h4, h5, h6, h8, SlackResponse.Err, hT, hP, hL, hB, hD]
  simp

/-- Witness of C2, amended: every transport answers `not_authed`. -/
theorem remote_error_results_witness :
    (teamEnvelope notAuthed).Ok = false ∧
    Answers (fun _ => Except.ok (teamEnvelope notAuthed))
      (sampleClient.GetTeamInfoContext (fun _ => .ok (teamEnvelope notAuthed))
        Context.Background).calls (Except.ok (teamEnvelope notAuthed)) ∧
    (sampleClient.GetTeamInfoContext (fun _ => .ok (teamEnvelope notAuthed))
        Context.Background).ret = some (none, some (GoError.SlackErrorResponse "not_authed")) ∧
    (sampleClient.GetOtherTeamInfoContext (fun _ => .ok (teamEnvelope notAuthed))
        Context.Background "T2").ret
      = some (none, some (GoError.SlackErrorResponse "not_authed")) ∧
    (sampleClient.GetTeamProfileContext (fun _ => .ok (profileEnvelope notAuthed))
        Context.Background).ret = some (none, some (GoError.SlackErrorResponse "not_authed")) ∧
    (sampleClient.GetAccessLogsContext (fun _ => .ok (loginEnvelope notAuthed))
        Context.Background NewAccessLogParameters).ret
      = some (none, none, some (GoError.SlackErrorResponse "not_authed")) ∧
    (sampleClient.GetBillableInfoContext (fun _ => .ok (billableEnvelope notAuthed))
        Context.Background "U1").ret
      = (some sampleBillable, some (GoError.SlackErrorResponse "not_authed")) ∧
    (sampleClient.GetBillableInfoForTeamContext (fun _ => .ok (billableEnvelope notAuthed))
        Context.Background).ret
      = (some sampleBillable, some (GoError.SlackErrorResponse "not_authed")) ∧
    (sampleClient.GetDiscoveryEnterpriseInfoContext
        (fun _ => .ok (enterpriseEnvelope false "not_authed")) Context.Background
        (some sampleDiscoveryParameters)).ret
      = some (some sampleEnterprise, "next-1",
          some (GoError.SlackErrorResponse "not_authed")) :=
  ⟨rfl, fun _ _ => rfl,
    remote_error_results sampleClient Context.Background "T2" "U1"
      NewAccessLogParameters sampleDiscoveryParameters
      (fun _ => .ok (teamEnvelope notAuthed)) (fun _ => .ok (profileEnvelope notAuthed))
      (fun _ => .ok (loginEnvelope notAuthed)) (fun _ => .ok (billableEnvelope notAuthed))
      (fun _ => .ok (enterpriseEnvelope false "not_authed"))
      (teamEnvelope notAuthed) (profileEnvelope notAuthed) (loginEnvelope notAuthed)
      (billableEnvelope notAuthed) (enterpriseEnvelope false "not_authed")
      rfl rfl rfl rfl rfl
      (fun _ _ => rfl) (fun _ _ => rfl) (fun _ _ => rfl) (fun _ _ => rfl)
      (fun _ _ => rfl) (fun _ _ => rfl) (fun _ _ => rfl)⟩

/-! ## Payload pass-through -/

/-- C9: when the transport succeeds on an envelope whose success flag is true,
`GetTeamInfoContext`, `GetOtherTeamInfoContext`, `GetTeamProfileContext` and
`GetAccessLogsContext` return a nil error and exactly the envelope's payload:
its team, its profile, or its logins (the same sequence) with its paging block
(the same record), nothing altered. -/
theorem success_returns_payload (api : Client) (ctx : Context) (team : String)
    (ap : AccessLogParameters)
    (trT : Transport TeamResponse) (trP : Transport TeamProfileResponse)
    (trL : Transport LoginResponse)
    (rT : TeamResponse) (rP : TeamProfileResponse) (rL : LoginResponse)
    (hT : rT.Ok = true) (hP : rP.Ok = true) (hL : rL.Ok = true)
    (hSelf : Answers trT (api.GetTeamInfoContext trT ctx).calls (.ok rT))
    (hOther : Answers trT (api.GetOtherTeamInfoContext trT ctx team).calls (.ok rT))
    (hProfile : Answers trP (api.GetTeamProfileContext trP ctx).calls (.ok rP))
    (hLogins : Answers trL (api.GetAccessLogsContext trL ctx ap).calls (.ok rL)) :
    (api.GetTeamInfoContext trT ctx).ret = some (some rT.Team, none) ∧
    (api.GetOtherTeamInfoContext trT ctx team).ret = some (some rT.Team, none) ∧
    (api.GetTeamProfileContext trP ctx).ret = some (some rP.Profile, none) ∧
    (api.GetAccessLogsContext trL ctx ap).ret
      = some (rL.Logins, some { Count := rL.Count, Total := rL.Total, Page := rL.Page,
                                Pages := rL.Pages }, none) := by
  rw [GetTeamInfoContext_eq] at hSelf ⊢
  rw [GetOtherTeamInfoContext_eq] at hOther ⊢
  rw [GetTeamProfileContext_eq] at hProfile ⊢
  rw [GetAccessLogsContext_eq] at hLogins ⊢
  have h1 := hSelf _ (List.mem_singleton.mpr rfl)
  have h2 := hOther _ (List.mem_singleton.mpr rfl)
  have h3 := hProfile _ (List.mem_singleton.mpr rfl)
  have h4 := hLogins _ (List.mem_singleton.mpr rfl)
  simp only [h1, h2, h3, h4, SlackResponse.Err, hT, hP, hL]
  simp

/-- Witness of C9: the envelope `{"ok": true, "team": {"id": "T1", "name":
"Acme"}}` gives the team with id `T1` and name `Acme`; the envelope with three
logins and paging page 2 of 5 gives these three logins and that paging. -/
theorem success_returns_payload_witness :
    (teamEnvelope okStatus).Ok = true ∧
    Answers (fun _ => Except.ok (loginEnvelope okStatus))
      (sampleClient.GetAccessLogsContext (fun _ => .ok (loginEnvelope okStatus))
        Context.Background NewAccessLogParameters).calls (Except.ok (loginEnvelope okStatus)) ∧
    (sampleClient.GetTeamInfoContext (fun _ => .ok (teamEnvelope okStatus))
        Context.Background).ret = some (some acme, none) ∧
    (sampleClient.GetOtherTeamInfoContext (fun _ => .ok (teamEnvelope okStatus))
        Context.Background "T2").ret = some (some acme, none) ∧
    (sampleClient.GetTeamProfileContext (fun _ => .ok (profileEnvelope okStatus))
        Context.Background).ret = some (some sampleProfile, none) ∧
    (sampleClient.GetAccessLogsContext (fun _ => .ok (loginEnvelope okStatus))
        Context.Background NewAccessLogParameters).ret
      = some (some [sampleLogin "U1", sampleLogin "U2", sampleLogin "U3"],
          some { Count := 100, Total := 412, Page := 2, Pages := 5 }, none) :=
  ⟨rfl, fun _ _ => rfl,
    success_returns_payload sampleClient Context.Background "T2" NewAccessLogParameters
      (fun _ => .ok (teamEnvelope okStatus)) (fun _ => .ok (profileEnvelope okStatus))
      (fun _ => .ok (loginEnvelope okStatus))
      (teamEnvelope okStatus) (profileEnvelope okStatus) (loginEnvelope okStatus)
      rfl rfl rfl
      (fun _ _ => rfl) (fun _ _ => rfl) (fun _ _ => rfl) (fun _ _ => rfl)⟩

/-- C8: when the transport succeeds with envelope `r`, the `nextCursor` that
`GetDiscoveryEnterpriseInfoContext` returns is the envelope's
`response_metadata.cursor`, whatever the parameters (the request's own cursor
included) and whatever the success flag; and two runs with the same parameters
whose transports give the same answer hand the same call to the transport and
return the same results. -/
theorem discovery_cursor_returned_unchanged (api : Client) (ctx : Context)
    (p : GetDiscoveryEnterpriseInfoParameters)
    (tr₁ tr₂ : Transport DiscoveryEnterpriseInfoResponse)
    (a : Except GoError DiscoveryEnterpriseInfoResponse)
    (h₁ : Answers tr₁ (api.GetDiscoveryEnterpriseInfoContext tr₁ ctx (some p)).calls a)
    (h₂ : Answers tr₂ (api.GetDiscoveryEnterpriseInfoContext tr₂ ctx (some p)).calls a) :
    (∀ r, a = .ok r →
      (api.GetDiscoveryEnterpriseInfoContext tr₁ ctx (some p)).ret
        = some (some r.Enterprise, r.ResponseMetadata.Cursor, r.Err)) ∧
    (api.GetDiscoveryEnterpriseInfoContext tr₁ ctx (some p)).calls
      = (api.GetDiscoveryEnterpriseInfoContext tr₂ ctx (some p)).calls ∧
    (api.GetDiscoveryEnterpriseInfoContext tr₁ ctx (some p)).ret
      = (api.GetDiscoveryEnterpriseInfoContext tr₂ ctx (some p)).ret := by
  rw [GetDiscoveryEnterpriseInfoContext_eq] at h₁ ⊢
  rw [GetDiscoveryEnterpriseInfoContext_eq] at h₂ ⊢
  have e₁ := h₁ _ (List.mem_singleton.mpr rfl)
  have e₂ := h₂ _ (List.mem_singleton.mpr rfl)
  simp only [e₁, e₂, and_self, and_true]
  intro r hr
  rw [hr]

/-- Witness of C8: the request carries the cursor `here`, the envelope carries
the cursor `next-1`, and `next-1` is what comes back. -/
theorem discovery_cursor_returned_unchanged_witness :
    Answers (fun _ => Except.ok (enterpriseEnvelope true ""))
      (sampleClient.GetDiscoveryEnterpriseInfoContext
        (fun _ => .ok (enterpriseEnvelope true "")) Context.Background
        (some sampleDiscoveryParameters)).calls (Except.ok (enterpriseEnvelope true "")) ∧
    (sampleClient.GetDiscoveryEnterpriseInfoContext
        (fun _ => .ok (enterpriseEnvelope true "")) Context.Background
        (some sampleDiscoveryParameters)).ret = some (some sampleEnterprise, "next-1", none) :=
  ⟨fun _ _ => rfl,
    (discovery_cursor_returned_unchanged sampleClient Context.Background
      sampleDiscoveryParameters (fun _ => .ok (enterpriseEnvelope true ""))
      (fun _ => .ok (enterpriseEnvelope true "")) (.ok (enterpriseEnvelope true ""))
      (fun _ _ => rfl) (fun _ _ => rfl)).1 (enterpriseEnvelope true "") rfl⟩

/-! ## Request encoding -/

/-- C4: `GetOtherTeamInfoContext` with the empty team runs exactly as
`GetTeamInfoContext` does: the same call to the transport and, the transport
being the same, the same results. That call posts to `team.info` form values
whose only key is `token`. For a non-empty team the form values carry `token`,
`team` with that team as its single value, and no other key. -/
theorem GetOtherTeamInfoContext_request (api : Client) (tr : Transport TeamResponse)
    (ctx : Context) (team : String) :
    api.GetOtherTeamInfoContext tr ctx "" = api.GetTeamInfoContext tr ctx ∧
    (∃ values : url.Values,
      (api.GetTeamInfoContext tr ctx).calls = [Call.postMethod ctx "team.info" values] ∧
      ∀ k, values k = if k = "token" then some [api.token] else none) ∧
    (∃ values : url.Values,
      (api.GetOtherTeamInfoContext tr ctx team).calls
        = [Call.postMethod ctx "team.info" values] ∧
      ∀ k, values k =
        if k = "token" then some [api.token]
        else if k = "team" then (if team = "" then none else some [team])
        else none) := by
  refine ⟨by simp [Client.GetOtherTeamInfoContext],
    ⟨url.Values.literal [("token", [api.token])], ?_, ?_⟩,
    ⟨if team = "" then url.Values.literal [("token", [api.token])]
      else (url.Values.literal [("token", [api.token])]).Add "team" team, ?_, ?_⟩⟩
  · rw [GetTeamInfoContext_eq]
  · intro k
    simp [url.Values.literal_cons, url.Values.literal_nil]
  · rw [GetOtherTeamInfoContext_eq]
  · intro k
    by_cases ht : team = "" <;> by_cases h1 : k = "token" <;> by_cases h2 : k = "team" <;>
      simp_all [url.Values.literal_cons, url.Values.literal_nil, url.Values.Add_apply]

/-- C5: `GetAccessLogsContext` posts to `team.accessLogs` form values with
`token` always (the client's token), `count` exactly when `Count ≠ 100` and
`page` exactly when `Page ≠ 1`, each with the decimal text of the field as its
single value, and no other key. `NewAccessLogParameters()` gives the token key
alone; the zero-valued parameters give `count` = `0` and `page` = `0`. -/
theorem GetAccessLogsContext_form_values (api : Client) (tr : Transport LoginResponse)
    (ctx : Context) (p : AccessLogParameters) :
    (∃ values : url.Values,
      (api.GetAccessLogsContext tr ctx p).calls
        = [Call.postMethod ctx "team.accessLogs" values] ∧
      ∀ k, values k =
        if k = "token" then some [api.token]
        else if k = "count" then (if p.Count ≠ 100 then some [strconv.Itoa p.Count] else none)
        else if k = "page" then (if p.Page ≠ 1 then some [strconv.Itoa p.Page] else none)
        else none) ∧
    (∃ values : url.Values,
      (api.GetAccessLogsContext tr ctx NewAccessLogParameters).calls
        = [Call.postMethod ctx "team.accessLogs" values] ∧
      ∀ k, values k = if k = "token" then some [api.token] else none) ∧
    (∃ values : url.Values,
      (api.GetAccessLogsContext tr ctx AccessLogParameters.zero).calls
        = [Call.postMethod ctx "team.accessLogs" values] ∧
      ∀ k, values k =
        if k = "token" then some [api.token]
        else if k = "count" then some ["0"]
        else if k = "page" then some ["0"]
        else none) := by
  refine ⟨⟨api.GetAccessLogsContext_values p, ?_, ?_⟩,
    ⟨api.GetAccessLogsContext_values NewAccessLogParameters, ?_, ?_⟩,
    ⟨api.GetAccessLogsContext_values AccessLogParameters.zero, ?_, ?_⟩⟩
  · rw [GetAccessLogsContext_eq]
  · exact GetAccessLogsContext_values_apply api p
  · rw [GetAccessLogsContext_eq]
  · intro k
    rw [GetAccessLogsContext_values_apply]
    simp [NewAccessLogParameters, DEFAULT_LOGINS_COUNT, DEFAULT_LOGINS_PAGE]
  · rw [GetAccessLogsContext_eq]
  · intro k
    rw [GetAccessLogsContext_values_apply]
    have h0 : strconv.Itoa 0 = "0" := by decide
    simp [AccessLogParameters.zero, h0]

/-- C6: `GetIntegrationLogsContext` hands `getMethod` the endpoint
`team.integrationLogs`, the client's token as the separate token argument, and
query values with `app_id`, `change_type`, `service_id`, `team_id` and `user`
each present exactly when the field is non-empty (that string as its single
value), `count` exactly when `Count ≠ 100`, `page` exactly when `Page ≠ 1` (the
decimal text), and no other key; in particular no `token` key. -/
theorem GetIntegrationLogsContext_query_values (api : Client)
    (tr : Transport IntegrationLogsResponse) (ctx : Context) (p : IntegrationLogsParameters) :
    ∃ values : url.Values,
      (api.GetIntegrationLogsContext tr ctx p).calls
        = [Call.getMethod ctx "team.integrationLogs" api.token values] ∧
      (∀ k, values k =
        if k = "app_id" then (if p.AppID ≠ "" then some [p.AppID] else none)
        else if k = "change_type" then (if p.ChangeType ≠ "" then some [p.ChangeType] else none)
        else if k = "service_id" then (if p.ServiceID ≠ "" then some [p.ServiceID] else none)
        else if k = "team_id" then (if p.TeamID ≠ "" then some [p.TeamID] else none)
        else if k = "user" then (if p.User ≠ "" then some [p.User] else none)
        else if k = "count" then (if p.Count ≠ 100 then some [strconv.Itoa p.Count] else none)
        else if k = "page" then (if p.Page ≠ 1 then some [strconv.Itoa p.Page] else none)
        else none) ∧
      values "token" = none := by
  refine ⟨GetIntegrationLogsContext_values p, ?_, ?_, ?_⟩
  · rw [GetIntegrationLogsContext_eq]
  · exact GetIntegrationLogsContext_values_apply p
  · rw [GetIntegrationLogsContext_values_apply]
    simp

/-- C7: for a non-nil `params`, `GetDiscoveryEnterpriseInfoContext` posts to
`discovery.enterprise.info` form values with `token` always, `cursor` exactly
when `Cursor` is non-empty (that string), `limit` exactly when `Limit ≠ 0` (its
decimal text, a negative limit included: `-5` is sent as `-5`),
`include_deleted` exactly when `IncludeDeleted` is true and then with the value
`true`, and no other key. -/
theorem GetDiscoveryEnterpriseInfoContext_form_values (api : Client)
    (tr : Transport DiscoveryEnterpriseInfoResponse) (ctx : Context)
    (p : GetDiscoveryEnterpriseInfoParameters) :
    (∃ values : url.Values,
      (api.GetDiscoveryEnterpriseInfoContext tr ctx (some p)).calls
        = [Call.postMethod ctx "discovery.enterprise.info" values] ∧
      ∀ k, values k =
        if k = "token" then some [api.token]
        else if k = "cursor" then (if p.Cursor ≠ "" then some [p.Cursor] else none)
        else if k = "limit" then (if p.Limit ≠ 0 then some [strconv.Itoa p.Limit] else none)
        else if k = "include_deleted" then
          (if p.IncludeDeleted = true then some ["true"] else none)
        else none) ∧
    (∃ values : url.Values,
      (api.GetDiscoveryEnterpriseInfoContext tr ctx
          (some { Cursor := "", IncludeDeleted := false, Limit := -5 })).calls
        = [Call.postMethod ctx "discovery.enterprise.info" values] ∧
      values "limit" = some ["-5"]) := by
  refine ⟨⟨api.GetDiscoveryEnterpriseInfoContext_values p, ?_, ?_⟩,
    ⟨api.GetDiscoveryEnterpriseInfoContext_values
      { Cursor := "", IncludeDeleted := false, Limit := -5 }, ?_, ?_⟩⟩
  · rw [GetDiscoveryEnterpriseInfoContext_eq]
  · exact GetDiscoveryEnterpriseInfoContext_values_apply api p
  · rw [GetDiscoveryEnterpriseInfoContext_eq]
  · rw [GetDiscoveryEnterpriseInfoContext_values_apply]
    have h5 : strconv.Itoa (-5) = "-5" := by decide
    simp [h5]

/-- C10: `GetBillableInfoContext` and `GetBillableInfoForTeamContext` post to
the same endpoint `team.billableInfo` and return the same envelope field, but
the per-user form always carries the key `user` with the given string, the
empty string included. So `GetBillableInfoContext` with the empty user sends
`token` and `user` = the empty string, which is not the request of
`GetBillableInfoForTeamContext`, whose only key is `token`. -/
theorem billable_info_requests (api : Client) (tr : Transport BillableInfoResponse)
    (ctx : Context) (user : String) (r : BillableInfoResponse) :
    (∃ values : url.Values,
      (api.GetBillableInfoContext tr ctx user).calls
        = [Call.postMethod ctx "team.billableInfo" values] ∧
      ∀ k, values k =
        if k = "token" then some [api.token] else if k = "user" then some [user] else none) ∧
    (∃ values : url.Values,
      (api.GetBillableInfoForTeamContext tr ctx).calls
        = [Call.postMethod ctx "team.billableInfo" values] ∧
      ∀ k, values k = if k = "token" then some [api.token] else none) ∧
    (api.GetBillableInfoContext tr ctx "").calls
      ≠ (api.GetBillableInfoForTeamContext tr ctx).calls ∧
    (api.GetBillableInfoContext (fun _ => .ok r) ctx user).ret = (r.BillableInfo, r.Err) ∧
    (api.GetBillableInfoForTeamContext (fun _ => .ok r) ctx).ret = (r.BillableInfo, r.Err) := by
  refine ⟨⟨url.Values.literal [("token", [api.token]), ("user", [user])], ?_, ?_⟩,
    ⟨url.Values.literal [("token", [api.token])], ?_, ?_⟩, ?_, ?_, ?_⟩
  · rw [GetBillableInfoContext_eq]
  · intro k
    simp [url.Values.literal_cons, url.Values.literal_nil]
  · rw [GetBillableInfoForTeamContext_eq]
  · intro k
    simp [url.Values.literal_cons, url.Values.literal_nil]
  · rw [GetBillableInfoContext_eq, GetBillableInfoForTeamContext_eq]
    intro h
    have hv := congrFun (Call.postMethod.inj (List.cons.inj h).1).2.2 "user"
    simp [url.Values.literal_cons, url.Values.literal_nil] at hv
  · rw [GetBillableInfoContext_eq]
  · rw [GetBillableInfoForTeamContext_eq]

end slack
